import Mathlib

/-!
# Verification of the hebi bytecode VM and emitter

Shallow embedding of the core of the `hebi` scripting-language
implementation: the tagged value model, the register VM's opcode
handlers (`src/vm/thread.rs`), the module registry state machine,
the two bytecode emitter branches (`src/emit/expr.rs` and
`crates/emit/src/emitter.rs`), and the list index conversion
(`src/object/list.rs`).  Each definition is translated directly from
the corresponding Rust source; parts of the repository that are not
present in the tree (noted in doc comments) are modelled from the
specification document.
-/

namespace Hebi

/-- Abstract representation of a non-NaN `f64` as the VM observes it in
`to_index`: whether it is finite, whether its fractional part is zero,
and its integer value (truncation toward zero). -/
structure FloatRepr where
  isFinite : Bool
  fractZero : Bool
  val : Int
deriving DecidableEq, Repr

/-- A materialized class (`ClassType` in `src/object/class.rs`):
its name together with the names of its ancestors, outermost parent
last.  Only the identity and the parent chain are observed by
`Thread::op_load_super`, so a class is represented by that chain. -/
structure ClassTypeT where
  name : String
  ancestors : List String
deriving DecidableEq, Repr

/-- The optional `parent` field of a `ClassTypeT`: the next class in
the ancestor chain, if any. -/
def ClassTypeT.parent : ClassTypeT → Option ClassTypeT
  | ⟨_, []⟩ => Option.none
  | ⟨_, a :: rest⟩ => some ⟨a, rest⟩

/-- A class instance as observed by `Thread::op_load_super`:
its class name and the optional parent class
(`this.parent` in `src/vm/thread.rs:631`). -/
structure ClassInstanceT where
  className : String
  parent : Option ClassTypeT
deriving DecidableEq, Repr

/-- Embeds `ClassProxy`: pairs a receiver instance with a specific ancestor
class (used for `super`). -/
structure ClassProxyT where
  this : ClassInstanceT
  class_ : ClassTypeT
deriving DecidableEq, Repr

/-- Heap object kinds distinguished by the opcode handlers under
verification.  Containers whose contents the verified handlers never
inspect are carried as opaque heap ids. -/
inductive Obj where
  | instance_ (i : ClassInstanceT)
  | proxy (p : ClassProxyT)
  | str (s : String)
  | list (id : Nat)
  | table (id : Nat)
  | function (id : Nat)
  | module (id : Nat)
deriving DecidableEq, Repr

/-- The tagged value: `none | bool | int(i32) | float(f64) | object`. -/
inductive Value where
  | none
  | bool (b : Bool)
  | int (i : Int)
  | float (f : FloatRepr)
  | obj (o : Obj)
deriving DecidableEq, Repr

/-- Modelled from the spec: `is_truthy` lives in `src/vm/thread/util.rs`,
which is not in the tree.  "Truthiness (`JumpIfFalse`, `and`, `or`):
`none` and `false` are falsy; everything else is truthy.  Zero and
empty containers are truthy." -/
def is_truthy : Value → Bool
  | .none => false
  | .bool b => b
  | _ => true

/-- Dispatch outcome of a conditional jump handler
(`super::dispatch::Jump`): either skip the jump (fall through to the
next instruction) or move the program counter by `offset`. -/
inductive Jump where
  | skip
  | move (offset : Nat)
deriving DecidableEq, Repr

/-- A constant-pool entry (`crate::value::constant::Constant`):
either a value or a jump offset. -/
inductive ConstantM where
  | value (v : Value)
  | offset (o : Nat)
deriving DecidableEq, Repr

/-- Embeds `Constant::as_offset`. -/
def ConstantM.as_offset : ConstantM → Option Nat
  | .offset o => some o
  | _ => Option.none

/-- Embeds `Thread::op_jump_if_false` (src/vm/thread.rs:791-796): the
accumulator is taken by move (left as `none`); a truthy value skips
the jump, a falsy value moves by `offset`. -/
def op_jump_if_false (acc : Value) (offset : Nat) : Jump × Value :=
  match is_truthy acc with
  | true => (Jump.skip, Value.none)
  | false => (Jump.move offset, Value.none)

/-- Embeds `Thread::op_jump_if_false_const` (src/vm/thread.rs:798-807): reads
the offset from the constant pool (undefined behaviour if the constant
is not an offset, modelled as `Option.none`), then branches on the
truthiness of the accumulator, which is taken by move. -/
def op_jump_if_false_const (constants : List ConstantM) (idx : Nat) (acc : Value) :
    Option (Jump × Value) :=
  match (constants.get? idx).bind ConstantM.as_offset with
  | Option.none => Option.none
  | some offset =>
    some (match is_truthy acc with
      | true => (Jump.move offset, Value.none)
      | false => (Jump.skip, Value.none))

/-- Result of `Thread::op_load_super`: a proxy in the accumulator, a
runtime error, or a Rust panic (`Option::unwrap` on `None`). -/
inductive SuperResult where
  | ok (p : ClassProxyT)
  | err (msg : String)
  | panic_ : SuperResult
deriving DecidableEq, Repr

/-- Embeds `Thread::op_load_super` (src/vm/thread.rs:616-640): reads register 0;
a non-object fails; a `ClassProxy` is rewrapped around
`proxy.class.parent` and a `ClassInstance` around `this.parent`, in
both cases via `Option::unwrap`, which panics when there is no parent;
any other object fails. -/
def op_load_super (reg0 : Value) : SuperResult :=
  match reg0 with
  | .obj o =>
    match o with
    | .proxy p =>
      match p.class_.parent with
      | some parent => .ok ⟨p.this, parent⟩
      | Option.none => .panic_
    | .instance_ i =>
      match i.parent with
      | some parent => .ok ⟨i, parent⟩
      | Option.none => .panic_
    | _ => .err "this is not a class"
  | _ => .err "self is not a class instance"

/-- A call frame (`Frame` in src/vm/thread.rs:325-332).  The bytecode
pointer is carried as an opaque id; the constant pool and the upvalue
list are carried by value. -/
structure FrameM where
  instructions : Nat
  constants : List ConstantM
  upvalues : List Value
  frame_size : Nat
  return_addr : Option Nat
  module_id : Nat
deriving DecidableEq, Repr

/-- The interpreter thread (`Thread` in src/vm/thread.rs:33-45): call
frames (head of the list is the current frame), the shared value
stack, the current stack base, the accumulator, the program counter,
plus the process-wide globals table and module-variable tables (the
parts of `Global` the verified handlers touch).  Module `m`'s
variables are the entry of `modules` keyed by `m`'s id. -/
structure ThreadM where
  call_frames : List FrameM
  stack : List Value
  stack_base : Nat
  acc : Value
  pc : Nat
  globals : List (String × Value)
  modules : List (Nat × List Value)
deriving DecidableEq, Repr

/-- Embeds `Thread::get_register`: reads `stack[stack_base + reg]` (reading
out of bounds is undefined behaviour in the source; here it defaults
to `none`, and theorems that depend on the read carry the bound). -/
def get_register (t : ThreadM) (reg : Nat) : Value :=
  (t.stack.get? (t.stack_base + reg)).getD Value.none

/-- Embeds `Thread::set_register`: writes `stack[stack_base + reg]` (writing
out of bounds is undefined behaviour in the source; here it is a
no-op, and theorems that depend on the write carry the bound). -/
def set_register (t : ThreadM) (reg : Nat) (value : Value) : ThreadM :=
  { t with stack := t.stack.set (t.stack_base + reg) value }

/-- Embeds `Thread::get_constant` on the current frame. -/
def get_constant (t : ThreadM) (idx : Nat) : Option ConstantM :=
  match t.call_frames with
  | [] => Option.none
  | frame :: _ => frame.constants.get? idx

/-- Embeds `Thread::get_constant_object::<String>`: the constant must be a
string value (anything else is an unchecked cast in the source,
modelled as `Option.none`). -/
def get_constant_str (t : ThreadM) (idx : Nat) : Option String :=
  match get_constant t idx with
  | some (.value (.obj (.str s))) => some s
  | _ => Option.none

/-- Embeds `Thread::op_store` (src/vm/thread.rs:376-381): takes the
accumulator by move (leaving `none`) and writes it to the register. -/
def op_store (t : ThreadM) (reg : Nat) : ThreadM :=
  let value := t.acc
  set_register { t with acc := Value.none } reg value

/-- Embeds `Thread::op_load` (src/vm/thread.rs:369-374). -/
def op_load (t : ThreadM) (reg : Nat) : ThreadM :=
  { t with acc := get_register t reg }

/-- Embeds `Thread::op_store_upvalue` (src/vm/thread.rs:401-412): takes the
accumulator by move and writes it into the current frame's upvalue
list (index out of bounds is undefined behaviour, modelled as
`Option.none`; an empty frame stack likewise). -/
def op_store_upvalue (t : ThreadM) (idx : Nat) : Option ThreadM :=
  match t.call_frames with
  | [] => Option.none
  | frame :: rest =>
    if idx < frame.upvalues.length then
      let value := t.acc
      some { t with
        acc := Value.none,
        call_frames := { frame with upvalues := frame.upvalues.set idx value } :: rest }
    else Option.none

/-- Embeds `Thread::op_store_global` (src/vm/thread.rs:465-471): resolves the
constant-pool name, takes the accumulator by move, and inserts it into
the globals table. -/
def op_store_global (t : ThreadM) (name : Nat) : Option ThreadM :=
  match get_constant_str t name with
  | Option.none => Option.none
  | some name =>
    let value := t.acc
    some { t with
      acc := Value.none,
      globals :=
        if t.globals.any (fun kv => kv.1 = name) then
          t.globals.map (fun kv => if kv.1 = name then (name, value) else kv)
        else
          t.globals ++ [(name, value)] }

/-- Embeds `ModuleVarTable::set_index`: writes variable `idx` of the table,
returning `false` when the index is out of bounds. -/
def module_vars_set_index (vars : List Value) (idx : Nat) (value : Value) :
    Option (List Value) :=
  if idx < vars.length then some (vars.set idx value) else Option.none

/-- Embeds `Thread::op_store_module_var` (src/vm/thread.rs:435-452): looks up
the current frame's module in the registry (failing if absent), takes
the accumulator by move, and writes module variable `idx` (failing if
the index is out of bounds).  Failures are runtime errors
(`Except.error`). -/
def op_store_module_var (t : ThreadM) (idx : Nat) : Except String ThreadM :=
  match t.call_frames with
  | [] => .error "call frame stack is empty"
  | frame :: _ =>
    match (t.modules.find? (fun m => m.1 = frame.module_id)) with
    | Option.none => .error "failed to get module"
    | some (mid, vars) =>
      let value := t.acc
      let t := { t with acc := Value.none }
      match module_vars_set_index vars idx value with
      | Option.none => .error "failed to set module variable"
      | some vars =>
        .ok { t with
          modules := t.modules.map (fun m => if m.1 = mid then (mid, vars) else m) }

/-- Embeds `Thread::op_store_field` (src/vm/thread.rs:531-544): resolves the
constant-pool name, reads the object register, takes the accumulator
by move, and hands the triple to the receiver's `set_named_field`
(whose heap effect is outside the thread state and is passed in as
`setNamedField`). -/
def op_store_field (setNamedField : Value → String → Value → Except String Unit)
    (t : ThreadM) (obj : Nat) (name : Nat) : Except String ThreadM :=
  match get_constant_str t name with
  | Option.none => .error "constant is not a string"
  | some name =>
    let object := get_register t obj
    let value := t.acc
    let t := { t with acc := Value.none }
    match setNamedField object name value with
    | .error e => .error e
    | .ok _ => .ok t

/-- Embeds `Thread::op_store_index` (src/vm/thread.rs:589-602): reads the
object and key registers, takes the accumulator by move, and hands the
triple to the receiver's `set_keyed_field` (heap effect passed in as
`setKeyedField`). -/
def op_store_index (setKeyedField : Value → Value → Value → Except String Unit)
    (t : ThreadM) (obj : Nat) (key : Nat) : Except String ThreadM :=
  let object := get_register t obj
  let keyv := get_register t key
  let value := t.acc
  let t := { t with acc := Value.none }
  match setKeyedField object keyv value with
  | .error e => .error e
  | .ok _ => .ok t

/-- Dispatch outcome of `Thread::op_return`
(`dispatch::Return`): resume the caller's bytecode at `pc`, or yield
to the embedder. -/
inductive ReturnCtl where
  | loadFrame (bytecode : Nat) (pc : Nat)
  | yield_ : ReturnCtl
deriving DecidableEq, Repr

/-- Embeds `Thread::op_return` (src/vm/thread.rs:924-949): pops the current
frame (panicking if there is none, modelled as `Option.none`),
truncates the stack by the popped frame's `frame_size`, and, when a
caller frame remains, subtracts that caller's `frame_size` from the
stack base; the saved return address (when present) is restored into
`pc` and the caller's bytecode is re-entered, otherwise the thread
yields.  The accumulator is not touched. -/
def op_return (t : ThreadM) : Option (ThreadM × ReturnCtl) :=
  match t.call_frames with
  | [] => Option.none
  | frame :: rest =>
    let stack := t.stack.take (t.stack.length - frame.frame_size)
    let t := { t with stack := stack, call_frames := rest }
    some (match rest with
      | caller :: _ =>
        let t := { t with stack_base := t.stack_base - caller.frame_size }
        match frame.return_addr with
        | some return_addr =>
          ({ t with pc := return_addr },
            ReturnCtl.loadFrame caller.instructions return_addr)
        | Option.none => (t, ReturnCtl.yield_)
      | [] => (t, ReturnCtl.yield_))

/-- Embeds `Thread::op_print_n` (src/vm/thread.rs:884-896): formats registers
`start .. start+count` with the value formatter `fmt` and writes them
to the output with no separator, followed by one newline.  Reading a
register out of bounds is undefined behaviour, modelled as
`Option.none`. -/
def op_print_n (fmt : Value → String) (t : ThreadM) (start count : Nat) :
    Option String :=
  if t.stack_base + start + count < t.stack.length then
    some (String.join (((List.range count).map
      (fun i => fmt (get_register t (start + i))))) ++ "\n")
  else Option.none

/-- Embeds `Thread::op_print` (src/vm/thread.rs:878-882): formats the
accumulator and writes it followed by one newline. -/
def op_print (fmt : Value → String) (t : ThreadM) : String :=
  fmt t.acc ++ "\n"

/-- Parameter spec of a function (`Params` in
`src/object/function.rs`): minimum argument count and optional
maximum. -/
structure ParamsM where
  min : Nat
  max : Option Nat
deriving DecidableEq, Repr

/-- Modelled from the spec: `check_args` lives in
`src/vm/thread/util.rs`, which is not in the tree.  "`Call` validates
arity against the callee's Params (min≤provided≤max)". -/
def check_args (params : ParamsM) (_is_method : Bool) (num_args : Nat) : Bool :=
  decide (params.min ≤ num_args) &&
    (match params.max with
      | Option.none => true
      | some m => decide (num_args ≤ m))

/-- A materialized class as `Thread::init_class` observes it: name,
ordered field defaults, and the optional `init` function (represented
by its parameter spec; its body is arbitrary bytecode and enters the
model as the `runInit` argument of `init_class`). -/
structure ClassTypeM where
  name : String
  fields : List (String × Value)
  init : Option ParamsM
deriving DecidableEq, Repr

/-- A class instance as `Thread::init_class` observes it: its class
name, its own field table, and the frozen flag. -/
structure ClassInstanceM where
  className : String
  fields : List (String × Value)
  frozen : Bool
deriving DecidableEq, Repr

/-- Modelled from the spec: `ClassInstance::new` lives in
`src/object/class.rs`, which is not in the tree.  "allocate a
ClassInstance with field Table cloned from the class's defaults"; the
instance starts unfrozen. -/
def ClassInstance_new (cls : ClassTypeM) : ClassInstanceM :=
  { className := cls.name, fields := cls.fields, frozen := false }

/-- Embeds `Thread::init_class` (src/vm/thread.rs:178-205): allocates the
instance; if the class has an `init`, checks its arity, runs it as a
method on the instance (`runInit` stands for executing its bytecode,
transforming the instance's state), and propagates its error; with no
`init`, any positional argument fails with "expected at most 0 args".
On success the instance is frozen and returned (in the accumulator). -/
def init_class (cls : ClassTypeM) (num_args : Nat)
    (runInit : ClassInstanceM → Except String ClassInstanceM) :
    Except String ClassInstanceM :=
  let instance_ := ClassInstance_new cls
  match cls.init with
  | some params =>
    if check_args params true num_args then
      match runInit instance_ with
      | .error e => .error e
      | .ok instance_ => .ok { instance_ with frozen := true }
    else .error "missing required argument"
  | Option.none =>
    if num_args > 0 then .error "expected at most 0 args"
    else .ok { instance_ with frozen := true }

/-- A loaded module as the registry stores it (name and id; the
module-variable table plays no role in the registry state machine). -/
structure ModuleM where
  name : String
  id : Nat
deriving DecidableEq, Repr

/-- The module registry and cycle-detection state owned by `Global`:
name-keyed registry entries, the visited (currently-initializing) id
set, and the next fresh module id. -/
structure RegistryState where
  registry : List (String × Nat × ModuleM)
  visited : List Nat
  next_module_id : Nat
deriving DecidableEq, Repr

/-- Embeds `ModuleRegistry::get_by_name`. -/
def registry_get_by_name (st : RegistryState) (path : String) :
    Option (Nat × ModuleM) :=
  (st.registry.find? (fun e => e.1 = path)).map (fun e => e.2)

/-- Error cases of `Thread::load_module`. -/
inductive LoadErr where
  | cycle : LoadErr
  | loadFailed : LoadErr
  | rootFailed : LoadErr
deriving DecidableEq, Repr

/-- Embeds `Thread::load_module` (src/vm/thread.rs:257-300).  A cached module
whose id is not in the visited set is returned as-is; a cached module
whose id is in the visited set fails with the
"partially initialized module" error.  Otherwise a fresh id is drawn;
`emitOk` stands for the loader/parse/emit pipeline (on failure the
error propagates before anything is registered); the new module is
inserted into the registry and its id into the visited set, and only
then is its root function run (`runRoot`, applied to the registry
state it observes).  On success the id leaves the visited set; on
failure the module also leaves the registry and the error
propagates.  `loading_state` is the intermediate `Loading` state a
fresh import passes to the module's root function: the module is
registered, its id is visited, and the id counter has advanced. -/
def loading_state (st : RegistryState) (path : String) : RegistryState :=
  { registry := st.registry ++
      [(path, st.next_module_id, ModuleM.mk path st.next_module_id)],
    visited := st.visited ++ [st.next_module_id],
    next_module_id := st.next_module_id + 1 }

/-- The body of `Thread::load_module` (see `loading_state` above). -/
def load_module (st : RegistryState) (path : String) (emitOk : Bool)
    (runRoot : RegistryState → Bool) :
    Except LoadErr ModuleM × RegistryState :=
  match registry_get_by_name st path with
  | some (module_id, module) =>
    if module_id ∈ st.visited then (.error .cycle, st)
    else (.ok module, st)
  | Option.none =>
    let module_id := st.next_module_id
    if ¬ emitOk then
      (.error .loadFailed, { st with next_module_id := module_id + 1 })
    else
      let module : ModuleM := { name := path, id := module_id }
      let st := loading_state st path
      if runRoot st then
        (.ok module, { st with visited := st.visited.filter (fun i => i ≠ module_id) })
      else
        (.error .rootFailed,
          { st with
            registry := st.registry.filter (fun e => e.2.1 ≠ module_id),
            visited := st.visited.filter (fun i => i ≠ module_id) })

/-- The instructions the emitters use for expression lowering.  Jump
targets are encoded the way the label patcher resolves them: as the
number of following instructions to skip (all jumps emitted by
`emit_logical_expr` are forward). -/
inductive EInstr where
  | loadNone
  | loadTrue
  | loadFalse
  | loadSmi (v : Int)
  | store (r : Nat)
  | load (r : Nat)
  | isNone
  | jump (skip : Nat)
  | jumpIfFalse (skip : Nat)
deriving DecidableEq, Repr

/-- Machine state for straight-line emitted code: the accumulator and
the frame's registers. -/
structure MState where
  acc : Value
  regs : List Value
deriving DecidableEq, Repr

/-- Executes a forward-jumping instruction sequence, with a fuel bound
(`Option.none` on exhaustion; every run below is given enough fuel to
finish).  `consume` is true for the VM in `src/vm/thread.rs`, whose
`op_store` and `op_jump_if_false` take the accumulator by move
(leaving `none`); running the other emitter branch's code with both
flag values covers either convention for the VM in `crates/vm`.
`op_is_none` overwrites the accumulator with the test result in both
VMs. -/
def runF (consume : Bool) : Nat → List EInstr → MState → Option MState
  | _, [], s => some s
  | 0, _ :: _, _ => Option.none
  | fuel + 1, i :: rest, s =>
    match i with
    | .loadNone => runF consume fuel rest { s with acc := Value.none }
    | .loadTrue => runF consume fuel rest { s with acc := Value.bool true }
    | .loadFalse => runF consume fuel rest { s with acc := Value.bool false }
    | .loadSmi v => runF consume fuel rest { s with acc := Value.int v }
    | .store r =>
      runF consume fuel rest
        { acc := if consume then Value.none else s.acc,
          regs := s.regs.set r s.acc }
    | .load r => runF consume fuel rest { s with acc := s.regs.getD r Value.none }
    | .isNone => runF consume fuel rest { s with acc := Value.bool (s.acc == Value.none) }
    | .jump skip => runF consume fuel (rest.drop skip) s
    | .jumpIfFalse skip =>
      let s' := { s with acc := if consume then Value.none else s.acc }
      if is_truthy s.acc then runF consume fuel rest s'
      else runF consume fuel (rest.drop skip) s'

/-- The `??` lowering of `State::emit_logical_expr`
(src/emit/expr.rs:181-210): store the left value into the temp
register `tmp`, test `IsNone`, on false jump over the right-hand code
to the reload of the temp; after the right-hand code jump over the
reload.  `lhs` and `rhs` stand for the already-emitted operand
code. -/
def emit_maybe_src (lhs rhs : List EInstr) (tmp : Nat) : List EInstr :=
  lhs ++ [EInstr.store tmp, EInstr.isNone, EInstr.jumpIfFalse (rhs.length + 1)]
    ++ rhs ++ [EInstr.jump 1, EInstr.load tmp]

/-- The `??` lowering of `Emitter::emit_logical_expr`
(crates/emit/src/emitter.rs:691-704): test `IsNone` on the left value
and on false jump over the right-hand code; no temp register is
allocated and the left value is never saved. -/
def emit_maybe_crates (lhs rhs : List EInstr) : List EInstr :=
  lhs ++ [EInstr.isNone, EInstr.jumpIfFalse rhs.length] ++ rhs

/-- The instruction set of the `crates` emitter branch, with the
operand fields enumerated by `patch_registers`
(crates/emit/src/emitter.rs:244-308). -/
inductive Instruction where
  | nop
  | loadConst (slot : Nat)
  | loadReg (reg : Nat)
  | storeReg (reg : Nat)
  | loadCapture (slot : Nat)
  | storeCapture (slot : Nat)
  | loadGlobal (name : Nat)
  | storeGlobal (name : Nat)
  | loadNamed (name : Nat)
  | storeNamed (name : Nat) (obj : Nat)
  | loadKeyed (key : Nat)
  | storeKeyed (key : Nat) (obj : Nat)
  | pushNone
  | pushTrue
  | pushFalse
  | pushSmallInt (value : Int)
  | createEmptyList
  | pushToList (list : Nat)
  | createEmptyDict
  | insertToDict (key : Nat) (dict : Nat)
  | insertToDictKeyed (key : Nat) (dict : Nat)
  | jump (offset : Nat)
  | jumpBack (offset : Nat)
  | jumpIfFalse (offset : Nat)
  | add (lhs : Nat)
  | sub (lhs : Nat)
  | mul (lhs : Nat)
  | div (lhs : Nat)
  | rem (lhs : Nat)
  | pow (lhs : Nat)
  | unaryPlus
  | unaryMinus
  | unaryNot
  | cmpEq (lhs : Nat)
  | cmpNeq (lhs : Nat)
  | cmpGt (lhs : Nat)
  | cmpGe (lhs : Nat)
  | cmpLt (lhs : Nat)
  | cmpLe (lhs : Nat)
  | isNone
  | print
  | printList (list : Nat)
  | call (callee : Nat) (args : Nat)
  | callKw (callee : Nat) (args : Nat)
  | isPosParamNotSet (index : Nat)
  | isKwParamNotSet (name : Nat)
  | loadKwParam (name : Nat) (param : Nat)
  | ret
  | suspend
deriving DecidableEq, Repr

/-- The register operands of an instruction: every operand that holds
a register index drawn from the register allocator at emission time
(for `LoadKwParam`, `emit_func_params` emits `param: reg.index()`,
crates/emit/src/emitter.rs:467-476). -/
def regOperands : Instruction → List Nat
  | .loadReg r => [r]
  | .storeReg r => [r]
  | .storeNamed _ o => [o]
  | .loadKeyed k => [k]
  | .storeKeyed k o => [k, o]
  | .pushToList l => [l]
  | .insertToDict k d => [k, d]
  | .insertToDictKeyed _ d => [d]
  | .add l => [l]
  | .sub l => [l]
  | .mul l => [l]
  | .div l => [l]
  | .rem l => [l]
  | .pow l => [l]
  | .cmpEq l => [l]
  | .cmpNeq l => [l]
  | .cmpGt l => [l]
  | .cmpGe l => [l]
  | .cmpLt l => [l]
  | .cmpLe l => [l]
  | .printList l => [l]
  | .call c _ => [c]
  | .callKw c _ => [c]
  | .loadKwParam _ p => [p]
  | _ => []

/-- One arm of `patch_registers`: rewrites the register operands the
source enumerates through `register_map` (indexing a `HashMap` with a
missing key panics in the source, modelled as `Option.none`).  Note
that the source's `Instruction::LoadKwParam(_) => {}` arm
(crates/emit/src/emitter.rs:303) leaves `LoadKwParam` untouched, even
though its `param` operand is a register: that operand is *not*
rewritten. -/
def patchInstr (register_map : Nat → Option Nat) : Instruction → Option Instruction
  | .loadReg r => (register_map r).map Instruction.loadReg
  | .storeReg r => (register_map r).map Instruction.storeReg
  | .storeNamed n o => (register_map o).map (Instruction.storeNamed n)
  | .loadKeyed k => (register_map k).map Instruction.loadKeyed
  | .storeKeyed k o =>
    match register_map k, register_map o with
    | some k, some o => some (Instruction.storeKeyed k o)
    | _, _ => Option.none
  | .pushToList l => (register_map l).map Instruction.pushToList
  | .insertToDict k d =>
    match register_map k, register_map d with
    | some k, some d => some (Instruction.insertToDict k d)
    | _, _ => Option.none
  | .insertToDictKeyed k d => (register_map d).map (Instruction.insertToDictKeyed k)
  | .add l => (register_map l).map Instruction.add
  | .sub l => (register_map l).map Instruction.sub
  | .mul l => (register_map l).map Instruction.mul
  | .div l => (register_map l).map Instruction.div
  | .rem l => (register_map l).map Instruction.rem
  | .pow l => (register_map l).map Instruction.pow
  | .cmpEq l => (register_map l).map Instruction.cmpEq
  | .cmpNeq l => (register_map l).map Instruction.cmpNeq
  | .cmpGt l => (register_map l).map Instruction.cmpGt
  | .cmpGe l => (register_map l).map Instruction.cmpGe
  | .cmpLt l => (register_map l).map Instruction.cmpLt
  | .cmpLe l => (register_map l).map Instruction.cmpLe
  | .printList l => (register_map l).map Instruction.printList
  | .call c a => (register_map c).map (fun c => Instruction.call c a)
  | .callKw c a => (register_map c).map (fun c => Instruction.callKw c a)
  | .loadKwParam n p => some (Instruction.loadKwParam n p)
  | i => some i

/-- Embeds `patch_registers` (crates/emit/src/emitter.rs:244-308): rewrites
every register operand of every instruction in place. -/
def patch_registers (register_map : Nat → Option Nat)
    (instructions : List Instruction) : Option (List Instruction) :=
  instructions.mapM (patchInstr register_map)

/-- Modelled from the spec: `RegAlloc::scan`
(crates/emit/src/regalloc.rs is not in the tree).  "a scan computes
live ranges ... and performs linear-scan coloring onto physical
register slots `[0, frame_size)`": every virtual register the scan
assigns is mapped to a physical slot below `frame_size`. -/
def scan_assigns_below (frame_size : Nat) (register_map : Nat → Option Nat) : Prop :=
  ∀ v p, register_map v = some p → p < frame_size

/-- The register operands `patch_registers` actually rewrites: all of
`regOperands` except the `param` of `LoadKwParam`, whose arm in the
source is empty (crates/emit/src/emitter.rs:303). -/
def regOperandsPatched : Instruction → List Nat
  | .loadKwParam _ _ => []
  | i => regOperands i

/-- Embeds `to_index` (src/object/list.rs:229-246) interprets a `Value` as a
list index for a list of length `len`.  A non-negative int casts
directly; a negative int `i` is rewritten to `len - (-i)` using
unsigned (wrapping) `usize` arithmetic; a float is accepted when it is
finite, has zero fractional part and lies in the f64-safe integer
range, and is cast with Rust's saturating float-to-usize conversion.
Everything else is rejected.  `usize_wrap_sub` models release-mode
two's-complement wrap-around of `usize` subtraction. -/
def USIZE_MOD : Nat := 2 ^ 64

/-- Wrapping `usize` subtraction `a - b` for `b < 2^64` (release-mode
semantics of the unchecked subtraction in `to_index`). -/
def usize_wrap_sub (a b : Nat) : Nat := (USIZE_MOD + a - b) % USIZE_MOD

/-- Modelled from the spec: `MAX_SAFE_INT`/`MIN_SAFE_INT` live in
`src/util.rs`, which is not in the tree; the names denote the largest
range of integers an `f64` represents exactly, `±(2^53 - 1)`. -/
def MAX_SAFE_INT : Int := 2 ^ 53 - 1

/-- Modelled from the spec: see `MAX_SAFE_INT`. -/
def MIN_SAFE_INT : Int := -(2 ^ 53 - 1)

/-- Embeds the cast `(-index) as usize` for a negative i32 `index`: `i32` negation
wraps at `i32::MIN` (release mode), and the result is cast to
`usize`. -/
def i32_neg_as_usize (i : Int) : Nat :=
  if i = -(2 ^ 31) then USIZE_MOD - 2 ^ 31 else (-i).toNat

/-- Rust's saturating `f64 as usize` cast applied to an integral float
value in the safe range: negative values saturate to 0. -/
def f64_as_usize (v : Int) : Nat := v.toNat

/-- Embeds `to_index` (src/object/list.rs:229-246). -/
def to_index (index : Value) (len : Nat) : Except String Nat :=
  match index with
  | .int i =>
    .ok (if i < 0 then usize_wrap_sub len (i32_neg_as_usize i) else i.toNat)
  | .float f =>
    if f.isFinite && f.fractZero
        && decide (MIN_SAFE_INT ≤ f.val) && decide (f.val ≤ MAX_SAFE_INT) then
      .ok (f64_as_usize f.val)
    else .error "not a valid index"
  | _ => .error "not a valid index"

/-- A thread whose frame registers hold the ints 1 and 2, for
exercising `op_print_n`. -/
def sample_print_thread : ThreadM :=
  { call_frames := [], stack := [Value.int 1, Value.int 2, Value.none],
    stack_base := 0, acc := Value.int 1, pc := 0, globals := [], modules := [] }


/-- A class with two fields and no explicit `init` (a data class). -/
def sample_data_class : ClassTypeM :=
  { name := "Point", fields := [("x", Value.none), ("y", Value.none)],
    init := Option.none }


/-- A class with an `init` taking one required argument. -/
def sample_init_class : ClassTypeM :=
  { name := "Counter", fields := [("v", Value.int 0)],
    init := some { min := 1, max := some 1 } }


/-- A concrete two-frame thread for exercising `op_return`: the callee
frame has size 2 and return address 9, the caller frame has size 3,
the stack holds the caller's three slots and the callee's two, and the
stack base sits at the callee's base `3 = 0 + 3`. -/
def sample_return_thread : ThreadM :=
  { call_frames :=
      [{ instructions := 1, constants := [], upvalues := [], frame_size := 2,
         return_addr := some 9, module_id := 0 },
       { instructions := 0, constants := [], upvalues := [], frame_size := 3,
         return_addr := Option.none, module_id := 0 }],
    stack := [Value.int 10, Value.int 11, Value.int 12, Value.int 13, Value.int 14],
    stack_base := 3, acc := Value.int 42, pc := 7, globals := [("g", Value.int 1)],
    modules := [(0, [Value.none])] }


/-- A one-frame thread on which every store handler succeeds: the
frame's constant 0 is the string "g", it has one upvalue slot, the
stack has one slot, module 0 is registered with one variable, and the
accumulator holds the int 7 about to be stored. -/
def sample_store_thread : ThreadM :=
  { call_frames :=
      [{ instructions := 0, constants := [ConstantM.value (Value.obj (Obj.str "g"))],
         upvalues := [Value.none], frame_size := 1, return_addr := Option.none,
         module_id := 0 }],
    stack := [Value.int 5], stack_base := 0, acc := Value.int 7, pc := 0,
    globals := [], modules := [(0, [Value.none])] }


/-- A registry caching module "m" under id 0, id not visited. -/
def sample_reg_cached : RegistryState :=
  { registry := [("m", 0, ModuleM.mk "m" 0)], visited := [], next_module_id := 1 }


/-- A registry caching module "m" under id 0, id currently visited
(the module is initializing). -/
def sample_reg_visited : RegistryState :=
  { registry := [("m", 0, ModuleM.mk "m" 0)], visited := [0], next_module_id := 1 }


/-- The empty registry. -/
def sample_reg_empty : RegistryState :=
  { registry := [], visited := [], next_module_id := 0 }


/-- A register map assigning every virtual register a physical slot
below 2 (as a scan over two live ranges would). -/
def sample_register_map : Nat → Option Nat := fun v => some (v % 2)


/-- A value formatter used to exercise the print handlers (stands for
the `Display` implementation of `Value`). -/
def sample_fmt : Value → String
  | .int i => toString i
  | .none => "none"
  | _ => "?"

/-- Initial machine state for running emitted expression code: empty
accumulator, one free register. -/
def sample_mstate : MState := { acc := Value.none, regs := [Value.none] }

/-! ## Theorems -/
/-- **C3.** The `??` lowering is broken in both emitter branches, on
the concrete program `1 ?? 2` (expected value: `1`).  In the
`src/emit/expr.rs` branch the temp-save `Store` *consumes* the
accumulator, so the following `IsNone` always tests `none`: the code
always evaluates and returns the right-hand side, here `2`.  In the
`crates/emit` branch no temp register is allocated at all, so when the
left value is not `none` the result is the leftover `IsNone` test
result (or a consumed `none`), under either accumulator convention of
that VM.  `16` is ample fuel for the seven- and four-instruction
sequences. -/
theorem maybe_lowering_loses_lhs :
    (runF true 16 (emit_maybe_src [EInstr.loadSmi 1] [EInstr.loadSmi 2] 0)
        sample_mstate).map MState.acc = some (Value.int 2) ∧
    (runF true 16 (emit_maybe_crates [EInstr.loadSmi 1] [EInstr.loadSmi 2])
        sample_mstate).map MState.acc = some Value.none ∧
    (runF false 16 (emit_maybe_crates [EInstr.loadSmi 1] [EInstr.loadSmi 2])
        sample_mstate).map MState.acc = some (Value.bool false) := by
  decide

/-- **C4.** `op_jump_if_false` (inline offset) jumps exactly on falsy
accumulator values (`none`, `false`) and falls through on everything
else, but its constant-pool variant `op_jump_if_false_const` has the
two branches swapped: on the same falsy input it skips, and on a
truthy input it jumps. -/
theorem jump_if_false_const_branches_inverted :
    op_jump_if_false (Value.bool false) 7 = (Jump.move 7, Value.none) ∧
    op_jump_if_false Value.none 7 = (Jump.move 7, Value.none) ∧
    op_jump_if_false (Value.int 0) 7 = (Jump.skip, Value.none) ∧
    op_jump_if_false (Value.bool true) 7 = (Jump.skip, Value.none) ∧
    op_jump_if_false_const [ConstantM.offset 7] 0 (Value.bool false) =
      some (Jump.skip, Value.none) ∧
    op_jump_if_false_const [ConstantM.offset 7] 0 Value.none =
      some (Jump.skip, Value.none) ∧
    op_jump_if_false_const [ConstantM.offset 7] 0 (Value.int 0) =
      some (Jump.move 7, Value.none) := by
  decide
/-- **C5.** `print 1, 2` (two registers, `op_print_n`) writes the two
formatted values with *no* separator (`"12\n"`), not space-separated
(`"1 2\n"`) as specified; the single-value `op_print` correctly writes
the value followed by one newline. -/
theorem print_n_omits_separator :
    op_print_n sample_fmt sample_print_thread 0 2 = some "12\x0a" ∧
    ("12\x0a" : String) ≠ "1 2\x0a" ∧
    op_print sample_fmt sample_print_thread = "1\x0a" := by
  refine ⟨?_, by decide, ?_⟩ <;> rfl

/-- **C6.** `op_load_super` on an instance (or proxy) whose class has
no parent evaluates `Option::unwrap` on `None` — a Rust panic that
aborts the VM, not a reported runtime error; with a parent present it
correctly builds a `ClassProxy` pairing the original instance with the
parent class. -/
theorem load_super_no_parent_panics :
    op_load_super (Value.obj (Obj.instance_ ⟨"A", Option.none⟩)) =
      SuperResult.panic_ ∧
    op_load_super (Value.obj (Obj.proxy ⟨⟨"B", some ⟨"A", []⟩⟩, ⟨"A", []⟩⟩)) =
      SuperResult.panic_ ∧
    op_load_super (Value.obj (Obj.instance_ ⟨"B", some ⟨"A", []⟩⟩)) =
      SuperResult.ok ⟨⟨"B", some ⟨"A", []⟩⟩, ⟨"A", []⟩⟩ ∧
    op_load_super (Value.obj (Obj.proxy ⟨⟨"C", some ⟨"B", ["A"]⟩⟩, ⟨"B", ["A"]⟩⟩)) =
      SuperResult.ok ⟨⟨"C", some ⟨"B", ["A"]⟩⟩, ⟨"A", []⟩⟩ ∧
    op_load_super (Value.int 3) =
      SuperResult.err "self is not a class instance" := by
  decide
/-- **C1 (counterexample).** Calling the two-field data class
`Point` (no explicit `init`) with two positional arguments does not
fill the fields: `init_class` fails with "expected at most 0 args"
(src/vm/thread.rs:196-198), whatever running an initializer would have
done. -/
theorem init_class_rejects_args_without_init :
    init_class sample_data_class 2 (fun i => Except.ok i) =
      Except.error "expected at most 0 args" := by
  rfl

/-- **C1 (amended).** `Thread::init_class` allocates the instance with
fields cloned from the class defaults; with no `init` and no
arguments it freezes and returns the instance immediately; with no
`init` and any positional argument it fails; with an `init` whose
arity check passes, the initializer runs as a method on the freshly
allocated instance and the instance is frozen exactly when `init`
returns successfully (an initializer error propagates and nothing is
returned). -/
theorem init_class_spec (cls : ClassTypeM) (n : Nat)
    (runInit : ClassInstanceM → Except String ClassInstanceM) :
    (cls.init = Option.none → n = 0 →
      init_class cls n runInit =
        Except.ok { className := cls.name, fields := cls.fields, frozen := true }) ∧
    (cls.init = Option.none → 0 < n →
      init_class cls n runInit = Except.error "expected at most 0 args") ∧
    (∀ p inst, cls.init = some p → check_args p true n = true →
      runInit (ClassInstance_new cls) = Except.ok inst →
      init_class cls n runInit = Except.ok { inst with frozen := true }) ∧
    (∀ p e, cls.init = some p → check_args p true n = true →
      runInit (ClassInstance_new cls) = Except.error e →
      init_class cls n runInit = Except.error e) := by
  refine ⟨?_, ?_, ?_, ?_⟩
  · intro hinit hn
    simp [init_class, hinit, hn, ClassInstance_new]
  · intro hinit hn
    simp [init_class, hinit, Nat.pos_iff_ne_zero.mp hn]
  · intro p inst hinit hargs hrun
    simp [init_class, hinit, hargs, hrun]
  · intro p e hinit hargs hrun
    simp [init_class, hinit, hargs, hrun]

/-- **C1 (witness).** The amended statement at concrete inputs: the
data class instantiated with zero arguments yields a frozen instance
with the default fields; with two arguments it fails; the class with
an `init` of arity one, called with one argument and an initializer
that sets field `v`, yields the frozen updated instance. -/
theorem init_class_spec_witness :
    init_class sample_data_class 0 (fun i => Except.ok i) =
      Except.ok { className := "Point",
                  fields := [("x", Value.none), ("y", Value.none)],
                  frozen := true } ∧
    init_class sample_data_class 2 (fun i => Except.ok i) =
      Except.error "expected at most 0 args" ∧
    init_class sample_init_class 1
        (fun i => Except.ok { i with fields := [("v", Value.int 5)] }) =
      Except.ok { className := "Counter", fields := [("v", Value.int 5)],
                  frozen := true } := by
  refine ⟨?_, ?_, ?_⟩
  · exact (init_class_spec sample_data_class 0 (fun i => Except.ok i)).1 rfl rfl
  · exact (init_class_spec sample_data_class 2 (fun i => Except.ok i)).2.1 rfl
      (by decide)
  · exact (init_class_spec sample_init_class 1
        (fun i => Except.ok { i with fields := [("v", Value.int 5)] })).2.2.1
      { min := 1, max := some 1 }
      { className := "Counter", fields := [("v", Value.int 5)], frozen := false }
      rfl (by decide) rfl

/-- **C7.** `op_return` with a caller frame remaining and a saved
return address pops exactly the current frame, truncates the value
stack by exactly the returning callee's `frame_size`, subtracts the
caller's `frame_size` from the stack base (which restores the caller's
base under the calling-convention invariant that the callee's base sat
exactly one caller-frame above it), restores `pc` to the saved return
address, re-enters the caller's bytecode there, and changes nothing
else: the accumulator (the return value), the globals and the module
tables are carried over unchanged. -/
theorem return_pops_frame_and_preserves_acc (t : ThreadM)
    (callee caller : FrameM) (rest : List FrameM) (ra : Nat)
    (hframes : t.call_frames = callee :: caller :: rest)
    (hra : callee.return_addr = some ra)
    (hstack : callee.frame_size ≤ t.stack.length) :
    op_return t = some
      ({ t with
          call_frames := caller :: rest,
          stack := t.stack.take (t.stack.length - callee.frame_size),
          stack_base := t.stack_base - caller.frame_size,
          pc := ra },
        ReturnCtl.loadFrame caller.instructions ra) ∧
    (∀ t' c, op_return t = some (t', c) →
      t'.acc = t.acc ∧
      t'.stack.length = t.stack.length - callee.frame_size ∧
      t.stack.length - t'.stack.length = callee.frame_size ∧
      t'.globals = t.globals ∧ t'.modules = t.modules ∧
      (∀ callerBase, t.stack_base = callerBase + caller.frame_size →
        t'.stack_base = callerBase)) := by
  have hret : op_return t = some
      ({ t with
          call_frames := caller :: rest,
          stack := t.stack.take (t.stack.length - callee.frame_size),
          stack_base := t.stack_base - caller.frame_size,
          pc := ra },
        ReturnCtl.loadFrame caller.instructions ra) := by
    simp [op_return, hframes, hra]
  refine ⟨hret, ?_⟩
  intro t' c h
  rw [hret] at h
  obtain ⟨ht', _⟩ := Prod.mk.injEq .. ▸ Option.some.injEq _ _ ▸ h
  subst ht'
  refine ⟨rfl, ?_, ?_, rfl, rfl, ?_⟩
  · simp [List.length_take]
  · simp [List.length_take]
    omega
  · intro callerBase hbase
    simp [hbase]
/-- **C7 (witness).** The return theorem evaluated on the concrete
two-frame thread: the callee frame is popped, the stack shrinks from
five to three slots, the base returns to 0, `pc` becomes the saved 9,
and the accumulator still holds 42. -/
theorem return_pops_frame_and_preserves_acc_witness :
    op_return sample_return_thread = some
      ({ sample_return_thread with
          call_frames :=
            [{ instructions := 0, constants := [], upvalues := [], frame_size := 3,
               return_addr := Option.none, module_id := 0 }],
          stack := [Value.int 10, Value.int 11, Value.int 12],
          stack_base := 0,
          pc := 9 },
        ReturnCtl.loadFrame 0 9) := by
  have h := return_pops_frame_and_preserves_acc sample_return_thread
    { instructions := 1, constants := [], upvalues := [], frame_size := 2,
      return_addr := some 9, module_id := 0 }
    { instructions := 0, constants := [], upvalues := [], frame_size := 3,
      return_addr := Option.none, module_id := 0 }
    [] 9 rfl rfl (by decide)
  exact h.1.trans (by decide)

/-- **C10.** Every handler that uses the accumulator as input for a
write or a test — `StoreReg`, `StoreUpvalue`, `StoreGlobal`,
`StoreField`, `StoreIndex`, `StoreModuleVar`, `JumpIfFalse` — takes it
by move: whenever the handler completes, the accumulator of the
resulting thread state is `none`; for `JumpIfFalse` the tested value
is gone on both branches (the returned accumulator is `none` whichever
`Jump` outcome is produced). -/
theorem store_handlers_take_acc_by_move
    (t₀ t₁ t₂ t₃ t₄ t₅ : ThreadM) (u₁ u₂ : ThreadM) (u₃ u₄ u₅ : ThreadM)
    (r idx gname obj fname okey midx joff : Nat) (a : Value)
    (snf : Value → String → Value → Except String Unit)
    (skf : Value → Value → Value → Except String Unit)
    (h₁ : op_store_upvalue t₁ idx = some u₁)
    (h₂ : op_store_global t₂ gname = some u₂)
    (h₃ : op_store_field snf t₃ obj fname = Except.ok u₃)
    (h₄ : op_store_index skf t₄ obj okey = Except.ok u₄)
    (h₅ : op_store_module_var t₅ midx = Except.ok u₅) :
    (op_store t₀ r).acc = Value.none ∧
    u₁.acc = Value.none ∧ u₂.acc = Value.none ∧ u₃.acc = Value.none ∧
    u₄.acc = Value.none ∧ u₅.acc = Value.none ∧
    (op_jump_if_false a joff).2 = Value.none := by
  refine ⟨rfl, ?_, ?_, ?_, ?_, ?_, ?_⟩
  · unfold op_store_upvalue at h₁
    split at h₁
    · exact absurd h₁ (by simp)
    · split at h₁
      · obtain rfl := Option.some.injEq _ _ ▸ h₁
        rfl
      · exact absurd h₁ (by simp)
  · unfold op_store_global at h₂
    split at h₂
    · exact absurd h₂ (by simp)
    · obtain rfl := Option.some.injEq _ _ ▸ h₂
      rfl
  · unfold op_store_field at h₃
    split at h₃
    · exact absurd h₃ (by simp)
    · dsimp only at h₃
      split at h₃
      · exact absurd h₃ (by simp)
      · obtain rfl := Except.ok.injEq .. ▸ h₃
        rfl
  · unfold op_store_index at h₄
    dsimp only at h₄
    split at h₄
    · exact absurd h₄ (by simp)
    · obtain rfl := Except.ok.injEq .. ▸ h₄
      rfl
  · unfold op_store_module_var at h₅
    split at h₅
    · exact absurd h₅ (by simp)
    · split at h₅
      · exact absurd h₅ (by simp)
      · dsimp only at h₅
        split at h₅
        · exact absurd h₅ (by simp)
        · obtain rfl := Except.ok.injEq .. ▸ h₅
          rfl
  · unfold op_jump_if_false
    split <;> rfl
/-- **C10 (witness).** All seven handlers applied to the concrete
thread whose accumulator holds 7: each succeeds and each result
carries accumulator `none`. -/
theorem store_handlers_take_acc_by_move_witness :
    (op_store sample_store_thread 0).acc = Value.none ∧
    ({ sample_store_thread with
        acc := Value.none,
        call_frames :=
          [{ instructions := 0,
             constants := [ConstantM.value (Value.obj (Obj.str "g"))],
             upvalues := [Value.int 7], frame_size := 1,
             return_addr := Option.none, module_id := 0 }] } : ThreadM).acc
      = Value.none ∧
    ({ sample_store_thread with
        acc := Value.none,
        globals := [("g", Value.int 7)] } : ThreadM).acc = Value.none ∧
    ({ sample_store_thread with acc := Value.none } : ThreadM).acc = Value.none ∧
    ({ sample_store_thread with acc := Value.none } : ThreadM).acc = Value.none ∧
    ({ sample_store_thread with
        acc := Value.none,
        modules := [(0, [Value.int 7])] } : ThreadM).acc = Value.none ∧
    (op_jump_if_false (Value.int 7) 3).2 = Value.none := by
  exact store_handlers_take_acc_by_move
    sample_store_thread sample_store_thread sample_store_thread
    sample_store_thread sample_store_thread sample_store_thread
    _ _ _ _ _ 0 0 0 0 0 0 0 3 (Value.int 7)
    (fun _ _ _ => Except.ok ()) (fun _ _ _ => Except.ok ())
    (by decide) (by decide) (by rfl) (by rfl) (by rfl)

/-- Filtering an appended singleton away: if every element of `l`
satisfies `p` and the appended element does not, the filter returns
exactly `l`. -/
theorem filter_append_singleton_of {α : Type} (p : α → Bool) (l : List α) (x : α)
    (hl : ∀ a ∈ l, p a = true) (hx : p x = false) :
    (l ++ [x]).filter p = l := by
  rw [List.filter_append, List.filter_eq_self.mpr hl]
  simp [hx]

/-- **C2.** The module registry obeys `Absent → Loading → Ready`:
a cached module whose id is not visited is returned without running
anything (the result does not depend on `runRoot` or `emitOk`); a
cached module whose id is visited fails with the cycle error and the
state is untouched; a fresh import registers the module and marks its
id visited *before* the root function observes the state, and on root
failure both insertions are rolled back (with a fresh id the state
returns exactly to the original registry and visited set) while the
error propagates; on root success the module stays registered and its
id leaves the visited set. -/
theorem load_module_state_machine
    (st : RegistryState) (path : String) (emitOk : Bool)
    (runRoot : RegistryState → Bool) (id : Nat) (m : ModuleM) :
    (registry_get_by_name st path = some (id, m) → id ∉ st.visited →
      load_module st path emitOk runRoot = (Except.ok m, st)) ∧
    (registry_get_by_name st path = some (id, m) → id ∈ st.visited →
      load_module st path emitOk runRoot = (Except.error LoadErr.cycle, st)) ∧
    (registry_get_by_name st path = Option.none → emitOk = false →
      load_module st path emitOk runRoot =
        (Except.error LoadErr.loadFailed,
          { st with next_module_id := st.next_module_id + 1 })) ∧
    (registry_get_by_name st path = Option.none →
      (path, st.next_module_id, ModuleM.mk path st.next_module_id) ∈
          (loading_state st path).registry ∧
        st.next_module_id ∈ (loading_state st path).visited) ∧
    (registry_get_by_name st path = Option.none → emitOk = true →
      runRoot (loading_state st path) = true → st.next_module_id ∉ st.visited →
      load_module st path emitOk runRoot =
        (Except.ok (ModuleM.mk path st.next_module_id),
          { registry := (loading_state st path).registry,
            visited := st.visited,
            next_module_id := st.next_module_id + 1 })) ∧
    (registry_get_by_name st path = Option.none → emitOk = true →
      runRoot (loading_state st path) = false → st.next_module_id ∉ st.visited →
      (∀ e ∈ st.registry, e.2.1 ≠ st.next_module_id) →
      load_module st path emitOk runRoot =
        (Except.error LoadErr.rootFailed,
          { registry := st.registry,
            visited := st.visited,
            next_module_id := st.next_module_id + 1 })) := by
  constructor
  · intro hreg hnv
    simp [load_module, hreg, hnv]
  constructor
  · intro hreg hv
    simp [load_module, hreg, hv]
  constructor
  · intro hreg hemit
    simp [load_module, hreg, hemit]
  constructor
  · intro hreg
    simp [loading_state]
  constructor
  · intro hreg hemit hroot hnv
    have hv := filter_append_singleton_of (fun i => decide (i ≠ st.next_module_id))
      st.visited st.next_module_id
      (fun a ha => by
        simp only [decide_eq_true_eq, ne_eq]
        exact fun h => hnv (h ▸ ha))
      (by simp)
    simp only [load_module, hreg, hemit, Bool.not_true, reduceIte, hroot, if_true]
    simp [loading_state, hv]
    exact fun a ha h => hnv (h ▸ ha)
  · intro hreg hemit hroot hnv hfresh
    have hv := filter_append_singleton_of (fun i => decide (i ≠ st.next_module_id))
      st.visited st.next_module_id
      (fun a ha => by
        simp only [decide_eq_true_eq, ne_eq]
        exact fun h => hnv (h ▸ ha))
      (by simp)
    have hr := filter_append_singleton_of
      (fun e : String × Nat × ModuleM => decide (e.2.1 ≠ st.next_module_id))
      st.registry (path, st.next_module_id, ModuleM.mk path st.next_module_id)
      (fun a ha => by
        simp only [decide_eq_true_eq, ne_eq]
        exact hfresh a ha)
      (by simp)
    simp only [load_module, hreg, hemit, Bool.not_true, reduceIte, hroot,
      Bool.false_eq_true, if_false]
    simp [loading_state, hv, hr]
    constructor
    · exact fun a a1 b hmem h => hfresh (a, a1, b) hmem h
    · exact fun a ha h => hnv (h ▸ ha)
/-- **C2 (witness).** The state machine on concrete registries: a
cached import returns the module untouched even when its root would
fail; a visited id yields the cycle error; a failed pipeline
propagates before registering; the loading state seen by a fresh
module's root contains the module and its visited id; a successful
fresh import keeps the module and unmarks the id; a failed root rolls
both insertions back. -/
theorem load_module_state_machine_witness :
    load_module sample_reg_cached "m" true (fun _ => false) =
      (Except.ok (ModuleM.mk "m" 0), sample_reg_cached) ∧
    load_module sample_reg_visited "m" true (fun _ => true) =
      (Except.error LoadErr.cycle, sample_reg_visited) ∧
    load_module sample_reg_empty "m" false (fun _ => true) =
      (Except.error LoadErr.loadFailed,
        { registry := [], visited := [], next_module_id := 1 }) ∧
    (("m", 0, ModuleM.mk "m" 0) ∈ (loading_state sample_reg_empty "m").registry ∧
      0 ∈ (loading_state sample_reg_empty "m").visited) ∧
    load_module sample_reg_empty "m" true (fun _ => true) =
      (Except.ok (ModuleM.mk "m" 0),
        { registry := [("m", 0, ModuleM.mk "m" 0)], visited := [],
          next_module_id := 1 }) ∧
    load_module sample_reg_empty "m" true (fun _ => false) =
      (Except.error LoadErr.rootFailed,
        { registry := [], visited := [], next_module_id := 1 }) := by
  refine ⟨?_, ?_, ?_, ?_, ?_, ?_⟩
  · exact (load_module_state_machine sample_reg_cached "m" true (fun _ => false)
      0 (ModuleM.mk "m" 0)).1 rfl (by simp [sample_reg_cached])
  · exact (load_module_state_machine sample_reg_visited "m" true (fun _ => true)
      0 (ModuleM.mk "m" 0)).2.1 rfl (by simp [sample_reg_visited])
  · exact (load_module_state_machine sample_reg_empty "m" false (fun _ => true)
      0 (ModuleM.mk "m" 0)).2.2.1 rfl rfl
  · exact (load_module_state_machine sample_reg_empty "m" true (fun _ => true)
      0 (ModuleM.mk "m" 0)).2.2.2.1 rfl
  · exact (load_module_state_machine sample_reg_empty "m" true (fun _ => true)
      0 (ModuleM.mk "m" 0)).2.2.2.2.1 rfl rfl rfl (by simp [sample_reg_empty])
  · exact (load_module_state_machine sample_reg_empty "m" true (fun _ => false)
      0 (ModuleM.mk "m" 0)).2.2.2.2.2 rfl rfl rfl (by simp [sample_reg_empty])
      (by simp [sample_reg_empty])

/-- Per-instruction bound: if the register map only assigns physical
slots below `frame_size`, every register operand of a patched
instruction that the pass rewrites is below `frame_size`; the
unrewritten `param` of `LoadKwParam` is excluded. -/
theorem patchInstr_bounds (frame_size : Nat) (register_map : Nat → Option Nat)
    (hscan : scan_assigns_below frame_size register_map)
    (i i' : Instruction) (hp : patchInstr register_map i = some i') :
    ∀ r ∈ regOperandsPatched i', r < frame_size := by
  cases i
  case storeKeyed k o =>
    simp only [patchInstr] at hp
    cases hk : register_map k with
    | none =>
      cases ho : register_map o with
      | none => rw [hk, ho] at hp; cases hp
      | some o₁ => rw [hk, ho] at hp; cases hp
    | some k₁ =>
      cases ho : register_map o with
      | none => rw [hk, ho] at hp; cases hp
      | some o₁ =>
        rw [hk, ho] at hp
        simp only [Option.some.injEq] at hp
        subst hp
        intro r hr
        simp only [regOperandsPatched, regOperands, List.mem_cons,
          List.mem_singleton, List.not_mem_nil, or_false] at hr
        rcases hr with rfl | rfl
        · exact hscan _ _ hk
        · exact hscan _ _ ho
  case insertToDict k d =>
    simp only [patchInstr] at hp
    cases hk : register_map k with
    | none =>
      cases hd : register_map d with
      | none => rw [hk, hd] at hp; cases hp
      | some d₁ => rw [hk, hd] at hp; cases hp
    | some k₁ =>
      cases hd : register_map d with
      | none => rw [hk, hd] at hp; cases hp
      | some d₁ =>
        rw [hk, hd] at hp
        simp only [Option.some.injEq] at hp
        subst hp
        intro r hr
        simp only [regOperandsPatched, regOperands, List.mem_cons,
          List.mem_singleton, List.not_mem_nil, or_false] at hr
        rcases hr with rfl | rfl
        · exact hscan _ _ hk
        · exact hscan _ _ hd
  all_goals
    first
      | (simp only [patchInstr, Option.some.injEq] at hp
         subst hp
         simp [regOperandsPatched, regOperands])
      | (simp only [patchInstr, Option.map_eq_some'] at hp
         obtain ⟨v, hv, rfl⟩ := hp
         intro r hr
         simp only [regOperandsPatched, regOperands, List.mem_singleton] at hr
         subst hr
         exact hscan _ _ hv)

/-- After the post-emission register-patching pass, every register
operand that the pass rewrites — all of them except `LoadKwParam`'s
`param`, whose arm is empty in the source — is a physical register
index below the frame size recorded by the register allocator's scan
(spec: linear-scan coloring onto `[0, frame_size)`).  Together with
`patch_registers_misses_kw_param` below, this localizes the register
discipline failure to exactly that one operand. -/
theorem patch_registers_bounds (frame_size : Nat) (register_map : Nat → Option Nat)
    (instructions out : List Instruction)
    (hscan : scan_assigns_below frame_size register_map)
    (hpatch : patch_registers register_map instructions = some out) :
    ∀ i ∈ out, ∀ r ∈ regOperandsPatched i, r < frame_size := by
  induction instructions generalizing out with
  | nil =>
    simp only [patch_registers, List.mapM_nil, pure, Option.some.injEq] at hpatch
    subst hpatch
    intro i hi
    cases hi
  | cons a l ih =>
    simp only [patch_registers, List.mapM_cons] at hpatch
    cases hpa : patchInstr register_map a with
    | none =>
      rw [hpa] at hpatch
      simp at hpatch
    | some a₁ =>
      rw [hpa] at hpatch
      cases hpl : l.mapM (patchInstr register_map) with
      | none =>
        rw [hpl] at hpatch
        simp at hpatch
      | some l₁ =>
        rw [hpl] at hpatch
        simp only [Option.bind_eq_bind, Option.some_bind, Option.pure_def,
          Option.some.injEq] at hpatch
        subst hpatch
        intro i hi
        cases hi with
        | head => exact patchInstr_bounds frame_size register_map hscan a a₁ hpa
        | tail _ h => exact ih l₁ hpl _ h
/-- **C8.** `patch_registers` misses `LoadKwParam`: its arm in the
source is empty (crates/emit/src/emitter.rs:303) although
`emit_func_params` fills the `param` operand with a regalloc register
(emitter.rs:467-476).  Patching a concrete sequence through the sample
scan map (every physical slot below frame size 2) rewrites the
`StoreReg` and `LoadReg` operands `5, 4, 7` to `1, 0, 1` but passes
`LoadKwParam` through unchanged, so its virtual register operand 5
survives in the final bytecode, outside `[0, frame_size)` — the
claimed register discipline is not established for functions with
keyword parameters. -/
theorem patch_registers_misses_kw_param :
    patch_registers sample_register_map
        [Instruction.storeReg 5, Instruction.loadKwParam 0 5,
          Instruction.loadReg 4, Instruction.storeKeyed 4 7, Instruction.ret] =
      some [Instruction.storeReg 1, Instruction.loadKwParam 0 5,
        Instruction.loadReg 0, Instruction.storeKeyed 0 1, Instruction.ret] ∧
    (5 : Nat) ∈ regOperands (Instruction.loadKwParam 0 5) ∧
    ¬ (5 : Nat) < 2 := by
  decide

/-- **C9 (counterexample).** A finite float with zero fractional part
is *not* always accepted as an index: `2^60` is finite and integral
but lies outside the `MIN_SAFE_INT..=MAX_SAFE_INT` range check, so
`to_index` rejects it. -/
theorem to_index_rejects_unsafe_float :
    to_index (Value.float ⟨true, true, 2 ^ 60⟩) 5 =
      Except.error "not a valid index" := by
  rfl

/-- **C9 (amended).** `to_index` interprets a negative `i32` index `i`
(above `i32::MIN`) as the end-relative position `len - (-i)` whenever
`-i ≤ len` (so `-1` addresses the last element); it accepts a finite
float with zero fractional part *within the safe-integer range*; and
it is end-relative only under the precondition `-i ≤ len`: when
`i < -len` the unsigned subtraction wraps below zero, returning the
huge index `2^64 + len - (-i)` (in particular, strictly beyond `len`)
instead of taking the "not a valid index" error branch. -/
theorem to_index_spec (i : Int) (len : Nat) (f : FloatRepr) :
    (i < 0 → -i ≤ (len : Int) → len < 2 ^ 63 → -(2 ^ 31) < i →
      to_index (Value.int i) len = Except.ok (len - (-i).toNat)) ∧
    (f.isFinite = true → f.fractZero = true →
      MIN_SAFE_INT ≤ f.val → f.val ≤ MAX_SAFE_INT →
      to_index (Value.float f) len = Except.ok (f64_as_usize f.val)) ∧
    (i < -(len : Int) → -(2 ^ 31) < i → len < 2 ^ 62 →
      to_index (Value.int i) len = Except.ok (2 ^ 64 + len - (-i).toNat) ∧
      len < 2 ^ 64 + len - (-i).toNat) := by
  refine ⟨?_, ?_, ?_⟩
  · intro hneg hle hlen hmin
    have hne : i ≠ -(2 ^ 31) := by omega
    simp only [to_index, if_pos hneg, Except.ok.injEq, usize_wrap_sub,
      i32_neg_as_usize, if_neg hne, USIZE_MOD]
    omega
  · intro h1 h2 h3 h4
    simp [to_index, h1, h2, h3, h4]
  · intro hlt hmin hlen
    have hneg : i < 0 := by omega
    have hne : i ≠ -(2 ^ 31) := by omega
    constructor
    · simp only [to_index, if_pos hneg, Except.ok.injEq, usize_wrap_sub,
        i32_neg_as_usize, if_neg hne, USIZE_MOD]
      omega
    · omega

/-- **C9 (witness).** The amended statement at concrete inputs: index
`-1` on a three-element list addresses slot 2; the integral float 2.0
is accepted; index `-7` on the same list wraps to `2^64 - 4`, far past
the length, instead of erroring. -/
theorem to_index_spec_witness :
    to_index (Value.int (-1)) 3 = Except.ok 2 ∧
    to_index (Value.float ⟨true, true, 2⟩) 3 = Except.ok 2 ∧
    (to_index (Value.int (-7)) 3 = Except.ok (2 ^ 64 + 3 - 7) ∧
      3 < 2 ^ 64 + 3 - 7) := by
  refine ⟨?_, ?_, ?_⟩
  · exact (to_index_spec (-1) 3 ⟨true, true, 2⟩).1 (by decide) (by decide)
      (by decide) (by decide)
  · exact (to_index_spec (-1) 3 ⟨true, true, 2⟩).2.1 rfl rfl (by decide) (by decide)
  · exact (to_index_spec (-7) 3 ⟨true, true, 2⟩).2.2 (by decide) (by decide)
      (by decide)

end Hebi
